import Mathlib

/-!
Shallow embedding of the Suxhuk Ordering API backend (`main.py`).

The document store is modelled as in-memory lists of records per collection.
Modelled from the spec: the persistence gateway (`database.py`, not under
`src/`) is the external collaborator of §2 — insertion appends a record and
assigns a fresh unique id (`create_document`), `find_one` returns the first
record matching the filter in natural order, `update_one` with `$set`
rewrites the first matching record in place, and `get_documents` returns the
whole collection in natural order.

Python floats on the money/weight fields are modelled as rationals (`Rat`);
machine ints (`quantity_kg`, `min_kg`, `step_kg`, `batch_threshold_kg`) as
`Int`.  Mongo `ObjectId` strings are modelled by their 24-hex-character
validity test and their numeric value.
-/

namespace Suxhuk

/-- Hex-digit test used by `ObjectId` validation (`bson.ObjectId` accepts
exactly 24 hex characters). -/
def isHexCh (c : Char) : Bool :=
  c.isDigit || (('a' ≤ c && c ≤ 'f') || ('A' ≤ c && c ≤ 'F'))

/-- Numeric value of a hex digit. -/
def hexVal (c : Char) : Nat :=
  if c.isDigit then c.toNat - 48
  else if 'a' ≤ c && c ≤ 'f' then c.toNat - 87
  else c.toNat - 55

/-- Model of `ObjectId(s)`: succeeds exactly on 24-hex-character strings, decoded to a
numeric id; `none` models the `InvalidId` exception caught by the handlers. -/
def parseOid (s : String) : Option Nat :=
  if s.length = 24 && s.toList.all isHexCh then
    some (s.toList.foldl (fun a c => a * 16 + hexVal c) 0)
  else none

/-- A document of the `customer` collection. -/
structure CustomerDoc where
  _id : Nat
  name : String
  email : String
  phone : Option String := none
  address : Option String := none
  created_at : Int
  updated_at : Int
  deriving Repr, DecidableEq

/-- A document of the `inventory` collection.  `updated_at` is optional: rows
inserted by lazy seeding / `POST /seed` carry no `updated_at` key. -/
structure InventoryDoc where
  _id : Nat
  product : String
  price_per_kg : Rat
  min_kg : Int
  step_kg : Int
  available_kg : Rat
  batch_threshold_kg : Int
  updated_at : Option Int := none
  deriving Repr, DecidableEq

/-- A document of the `order` collection. -/
structure OrderDoc where
  _id : Nat
  customer_id : String
  product : String
  quantity_kg : Int
  total_price_nzd : Rat
  status : String
  notes : Option String
  batch_index : Int
  created_at : Int
  updated_at : Int
  deriving Repr, DecidableEq

/-- The three collections of the store plus the gateway's fresh-id counter. -/
structure DB where
  customers : List CustomerDoc
  inventory : List InventoryDoc
  orders : List OrderDoc
  nextId : Nat
  deriving Repr, DecidableEq

/-- The `HTTPException`s raised by the endpoints under study, tagged with the
value interpolated into the message where there is one.  Spec taxonomy (§7):
`invalidCustomerId`/`invalidOrderId` are `InvalidReference`,
`customerNotFound`/`orderNotFound` are `NotFound`, the rest keep their name. -/
inductive ApiError where
  | invalidCustomerId
  | customerNotFound
  | notConfigured
  | belowMinimum (min_kg : Int)
  | invalidIncrement (step_kg : Int)
  | invalidOrderId
  | orderNotFound
  deriving Repr, DecidableEq

/-- HTTP status code of each error. -/
def ApiError.httpStatus : ApiError → Nat
  | .customerNotFound => 404
  | .orderNotFound => 404
  | _ => 400

/-- Model of `update_one`: rewrite the first record matching the filter, in place. -/
def updateFirst (p : α → Bool) (f : α → α) : List α → List α
  | [] => []
  | x :: xs => if p x then f x :: xs else x :: updateFirst p f xs

/-- Round half to even to an integer, the tie behaviour of Python `round` on
exact values (floats are modelled as exact rationals). -/
def roundHE (q : Rat) : Int :=
  if q - (⌊q⌋ : Rat) < 1/2 then ⌊q⌋
  else if (1/2 : Rat) < q - (⌊q⌋ : Rat) then ⌊q⌋ + 1
  else if ⌊q⌋ % 2 = 0 then ⌊q⌋ else ⌊q⌋ + 1

/-- Python `round(x, 2)`. -/
def round2 (q : Rat) : Rat := (roundHE (q * 100) : Rat) / 100

/-- Request body of `POST /customers` (`CustomerIn`). -/
structure CustomerIn where
  name : String
  email : String
  phone : Option String := none
  address : Option String := none
  deriving Repr, DecidableEq

/-- Request body of `POST /orders` (`OrderIn`).  Pydantic enforces
`quantity_kg ≥ 1` and `product ∈ {suxhuk, mish_te_teren}` at the request
layer; theorems take those as hypotheses where needed. -/
structure OrderIn where
  customer_id : String
  product : String
  quantity_kg : Int
  notes : Option String := none
  deriving Repr, DecidableEq

/-- The `$set` payload applied to an existing customer on upsert: every
request field overwritten, `updated_at` refreshed, `created_at` kept from the
existing record. -/
def overwriteCustomer (existing : CustomerDoc) (data : CustomerIn) (now : Int) : CustomerDoc :=
  { existing with
      name := data.name
      email := data.email
      phone := data.phone
      address := data.address
      updated_at := now }

/-- The document inserted for a previously unseen customer email: both
timestamps set to `now`, id assigned by the gateway. -/
def freshCustomer (db : DB) (data : CustomerIn) (now : Int) : CustomerDoc :=
  { _id := db.nextId
    name := data.name
    email := data.email
    phone := data.phone
    address := data.address
    created_at := now
    updated_at := now }

/-- Endpoint `POST /customers`: upsert by email.  On a hit, `$set` every payload field,
with `created_at` explicitly reset to the existing record's value and
`updated_at` refreshed; on a miss, insert with both timestamps `now`. -/
def upsert_customer (db : DB) (data : CustomerIn) (now : Int) : DB × CustomerDoc :=
  match db.customers.find? (fun c => c.email == data.email) with
  | some existing =>
    ({ db with
        customers := updateFirst (fun c => c._id == existing._id)
          (fun _ => overwriteCustomer existing data now) db.customers },
      overwriteCustomer existing data now)
  | none =>
    ({ db with
        customers := db.customers ++ [freshCustomer db data now]
        nextId := db.nextId + 1 }, freshCustomer db data now)

/-- The default `suxhuk` inventory row (price 50.0, min 1, step 1, stock 0,
threshold 15), as inserted with a given fresh id. -/
def suxhukDefault (i : Nat) : InventoryDoc :=
  { _id := i
    product := "suxhuk"
    price_per_kg := 50
    min_kg := 1
    step_kg := 1
    available_kg := 0
    batch_threshold_kg := 15 }

/-- The default `mish_te_teren` inventory row (price 65.0, min 3, step 1,
stock 0, threshold 15). -/
def mishTeTerenDefault (i : Nat) : InventoryDoc :=
  { _id := i
    product := "mish_te_teren"
    price_per_kg := 65
    min_kg := 3
    step_kg := 1
    available_kg := 0
    batch_threshold_kg := 15 }

/-- Endpoint `GET /inventory`: lazily insert a default row for each of the two fixed
products that has no record (membership tested against the pre-call listing),
then return the whole collection. -/
def list_inventory (db : DB) : DB × List InventoryDoc :=
  let present := db.inventory.map (fun d => d.product)
  let db1 :=
    if "suxhuk" ∈ present then db
    else { db with
            inventory := db.inventory ++ [suxhukDefault db.nextId]
            nextId := db.nextId + 1 }
  let db2 :=
    if "mish_te_teren" ∈ present then db1
    else { db1 with
            inventory := db1.inventory ++ [mishTeTerenDefault db1.nextId]
            nextId := db1.nextId + 1 }
  (db2, db2.inventory)

/-- Deficit as computed by the code, `abs(new_available) if new_available < 0 else 0`, with
`new_available = available_kg - quantity_kg`. -/
def codeDeficit (available : Rat) (qty : Int) : Rat :=
  if available - (qty : Rat) < 0 then |available - (qty : Rat)| else 0

/-- Batch index as computed by the code, `(deficit - 1) // threshold if deficit > 0 else 0`; Python
float floor division, hence `Int.floor` of the exact quotient. -/
def codeBatchIndex (available : Rat) (qty threshold : Int) : Int :=
  if 0 < codeDeficit available qty then
    ⌊(codeDeficit available qty - 1) / (threshold : Rat)⌋
  else 0

/-- The order document built by `create_order` just before persistence. -/
def mkOrderDoc (oid : Nat) (order : OrderIn) (inv : InventoryDoc) (now : Int) : OrderDoc :=
  { _id := oid
    customer_id := order.customer_id
    product := order.product
    quantity_kg := order.quantity_kg
    total_price_nzd := round2 (inv.price_per_kg * (order.quantity_kg : Rat))
    status := "received"
    notes := order.notes
    batch_index := codeBatchIndex inv.available_kg order.quantity_kg inv.batch_threshold_kg
    created_at := now
    updated_at := now }

/-- The inventory write-back of `create_order`: set `available_kg` to the new
value and stamp `updated_at`. -/
def debitInv (now : Int) (new_available : Rat) (i : InventoryDoc) : InventoryDoc :=
  { i with available_kg := new_available, updated_at := some now }

/-- Endpoint `POST /orders` (`create_order`): validate customer, inventory rule,
minimum and increment; on success insert the computed order document and
write back the debited inventory row.  An `HTTPException` aborts before any
write, so the error cases return the store unchanged. -/
def create_order (db : DB) (order : OrderIn) (now : Int) : DB × Except ApiError OrderDoc :=
  match parseOid order.customer_id with
  | none => (db, .error .invalidCustomerId)
  | some cid =>
    match db.customers.find? (fun c => c._id == cid) with
    | none => (db, .error .customerNotFound)
    | some _ =>
      match db.inventory.find? (fun i => i.product == order.product) with
      | none => (db, .error .notConfigured)
      | some inv =>
        if order.quantity_kg < inv.min_kg then
          (db, .error (.belowMinimum inv.min_kg))
        else if order.quantity_kg % inv.step_kg ≠ 0 then
          (db, .error (.invalidIncrement inv.step_kg))
        else
          let doc := mkOrderDoc db.nextId order inv now
          ({ db with
              orders := db.orders ++ [doc]
              inventory := updateFirst (fun i => i._id == inv._id)
                (debitInv now (inv.available_kg - (order.quantity_kg : Rat))) db.inventory
              nextId := db.nextId + 1 },
            .ok doc)

/-- The status/timestamp overwrite performed by `PATCH /orders/{id}/status`. -/
def setStatus (status : String) (now : Int) (o : OrderDoc) : OrderDoc :=
  { o with status := status, updated_at := now }

/-- Endpoint `PATCH /orders/:id/status`: 400 on a malformed id, 404 when no order
matches, otherwise overwrite `status` and `updated_at` unconditionally. -/
def update_order_status (db : DB) (order_id status : String) (now : Int) :
    DB × Except ApiError OrderDoc :=
  match parseOid order_id with
  | none => (db, .error .invalidOrderId)
  | some oid =>
    match db.orders.find? (fun o => o._id == oid) with
    | none => (db, .error .orderNotFound)
    | some o =>
      ({ db with orders := updateFirst (fun x => x._id == oid) (setStatus status now) db.orders },
        .ok (setStatus status now o))

/-- Effect of `$set item` in `POST /seed` on an existing row: overwrite the six payload
fields, leaving `_id` (and any `updated_at` key) untouched. -/
def seedFields (item : InventoryDoc) (i : InventoryDoc) : InventoryDoc :=
  { i with
      product := item.product
      price_per_kg := item.price_per_kg
      min_kg := item.min_kg
      step_kg := item.step_kg
      available_kg := item.available_kg
      batch_threshold_kg := item.batch_threshold_kg }

/-- One iteration of the `POST /seed` loop: upsert the default row for one
product (overwrite on hit, insert on miss). -/
def seedOne (mk : Nat → InventoryDoc) (db : DB) : DB :=
  let item := mk db.nextId
  match db.inventory.find? (fun i => i.product == item.product) with
  | some existing =>
    { db with inventory :=
        updateFirst (fun i => i._id == existing._id) (seedFields item) db.inventory }
  | none =>
    { db with inventory := db.inventory ++ [item], nextId := db.nextId + 1 }

/-- Endpoint `POST /seed`: upsert both default rows, `suxhuk` first. -/
def seed_defaults (db : DB) : DB :=
  seedOne mishTeTerenDefault (seedOne suxhukDefault db)

/-- Does the `customer_id` string parse and resolve to a stored customer?
(the guard of steps 1–2 of the placement algorithm). -/
def customerFound (db : DB) (s : String) : Bool :=
  match parseOid s with
  | none => false
  | some cid => (db.customers.find? (fun c => c._id == cid)).isSome

/-- Spec-side definition (§4.2 step 7 / glossary): the deficit after an order
is the magnitude of the negative available quantity after subtraction, zero
when none. -/
def deficitAfter (available_kg : Rat) (quantity_kg : Int) : Rat :=
  max 0 ((quantity_kg : Rat) - available_kg)

/-- Spec-side definition (§4.2 step 8): batch index is `0` on zero deficit,
else `floor((deficit - 1) / batch_threshold_kg)`. -/
def specBatchIndex (deficit : Rat) (threshold : Int) : Int :=
  if deficit = 0 then 0 else ⌊(deficit - 1) / (threshold : Rat)⌋

/-! ### Concrete fixtures for witnesses and counterexamples -/

/-- A well-formed `ObjectId` string decoding to id 0. -/
def oidZero : String := "000000000000000000000000"

/-- A stored customer with id 0. -/
def custA : CustomerDoc :=
  { _id := 0, name := "Ana", email := "ana@example.com", created_at := 0, updated_at := 0 }

/-- The `suxhuk` inventory row at stock 0 with the default rules. -/
def invSux0 : InventoryDoc :=
  { _id := 1, product := "suxhuk", price_per_kg := 50, min_kg := 1, step_kg := 1,
    available_kg := 0, batch_threshold_kg := 15 }

/-- Store with one customer and the `suxhuk` row at stock 0. -/
def dbW : DB := { customers := [custA], inventory := [invSux0], orders := [], nextId := 2 }

/-- The spec's example request: 50 kg of `suxhuk`. -/
def ordW : OrderIn := { customer_id := oidZero, product := "suxhuk", quantity_kg := 50 }

/-- The document persisted for `ordW` against `dbW`. -/
def docW : OrderDoc := mkOrderDoc 2 ordW invSux0 0

/-- The store after placing `ordW` against `dbW`. -/
def dbW2 : DB := (create_order dbW ordW 0).1

/-- A `suxhuk` inventory row with fractional stock 0.5 kg. -/
def invHalf : InventoryDoc :=
  { _id := 1, product := "suxhuk", price_per_kg := 50, min_kg := 1, step_kg := 1,
    available_kg := 1/2, batch_threshold_kg := 15 }

/-- Store with one customer and the fractional-stock `suxhuk` row. -/
def dbHalf : DB := { customers := [custA], inventory := [invHalf], orders := [], nextId := 2 }

/-- A 1 kg order of `suxhuk`. -/
def ordOne : OrderIn := { customer_id := oidZero, product := "suxhuk", quantity_kg := 1 }

/-- A `suxhuk` inventory row with rules `min_kg = 3` and `step_kg = 2` (admissible
per the pydantic constraints `min_kg ≥ 1`, `step_kg ≥ 1`). -/
def invMin3Step2 : InventoryDoc :=
  { _id := 1, product := "suxhuk", price_per_kg := 50, min_kg := 3, step_kg := 2,
    available_kg := 0, batch_threshold_kg := 15 }

/-- Store with one customer and the min-3/step-2 `suxhuk` rules. -/
def dbC4 : DB := { customers := [custA], inventory := [invMin3Step2], orders := [], nextId := 2 }

/-- A 1 kg `suxhuk` order (below minimum AND off the step grid). -/
def ordQ1 : OrderIn := { customer_id := oidZero, product := "suxhuk", quantity_kg := 1 }

/-- A 2 kg `suxhuk` order (below minimum, on the step grid). -/
def ordQ2 : OrderIn := { customer_id := oidZero, product := "suxhuk", quantity_kg := 2 }

/-- A 5 kg `suxhuk` order (meets minimum, off the step grid). -/
def ordQ5 : OrderIn := { customer_id := oidZero, product := "suxhuk", quantity_kg := 5 }

/-- Store with one customer and an empty inventory collection. -/
def dbNoInv : DB := { customers := [custA], inventory := [], orders := [], nextId := 1 }

/-- A second customer payload reusing the first's email. -/
def cAna : CustomerIn := { name := "Ana", email := "ana@example.com" }

/-- The same email as `cAna` with a different name. -/
def cBep : CustomerIn := { name := "Bep", email := "ana@example.com" }

/-- The empty store. -/
def dbEmpty : DB := { customers := [], inventory := [], orders := [], nextId := 0 }

/-- A stored order with id 0 against which the status update is exercised. -/
def ordDoc0 : OrderDoc :=
  { _id := 0, customer_id := oidZero, product := "suxhuk", quantity_kg := 1,
    total_price_nzd := 50, status := "received", notes := none, batch_index := 0,
    created_at := 0, updated_at := 0 }

/-- Store holding the single order `ordDoc0`. -/
def dbOrd : DB := { customers := [custA], inventory := [invSux0], orders := [ordDoc0], nextId := 2 }

/-- A well-formed `ObjectId` string decoding to id 1, absent from `dbOrd`. -/
def oidOne : String := "000000000000000000000001"

/-- An administratively configured `suxhuk` row: custom price, rules and
positive stock, with an `updated_at` stamp. -/
def invSuxCustom : InventoryDoc :=
  { _id := 4, product := "suxhuk", price_per_kg := 99, min_kg := 2, step_kg := 2,
    available_kg := 7, batch_threshold_kg := 20, updated_at := some 3 }

/-- An administratively configured `mish_te_teren` row in deficit. -/
def invMishCustom : InventoryDoc :=
  { _id := 5, product := "mish_te_teren", price_per_kg := 70, min_kg := 1, step_kg := 1,
    available_kg := -4, batch_threshold_kg := 10 }

/-- Store holding both configured rows. -/
def dbSeed : DB := { customers := [], inventory := [invSuxCustom, invMishCustom], orders := [], nextId := 6 }

/-! ### Helper lemmas about the list-backed store -/

/-- An `update_one` on a list whose prefix misses the filter rewrites the first
hit in place. -/
theorem updateFirst_append_of_first {α} (p : α → Bool) (f : α → α) (s t : List α) (a : α)
    (hs : ∀ x ∈ s, p x = false) (ha : p a = true) :
    updateFirst p f (s ++ a :: t) = s ++ f a :: t := by
  induction s with
  | nil => simp [updateFirst, ha]
  | cons x xs ih =>
    have hx : p x = false := hs x (List.mem_cons_self x xs)
    simp only [List.cons_append, updateFirst, hx]
    simp only [Bool.false_eq_true, if_false, List.cons.injEq, true_and]
    exact ih (fun y hy => hs y (List.mem_cons_of_mem x hy))

/-- A hit in the left list is still the first hit after appending. -/
theorem find?_append_some {α} {p : α → Bool} {l l2 : List α} {a : α}
    (h : l.find? p = some a) : (l ++ l2).find? p = some a := by
  rw [List.find?_append, h]
  rfl

/-- A `find_one` on a list whose prefix misses the filter returns the first
hit. -/
theorem find?_append_first {α} (p : α → Bool) (s t : List α) (a : α)
    (hs : ∀ x ∈ s, p x = false) (ha : p a = true) :
    (s ++ a :: t).find? p = some a := by
  rw [List.find?_append, List.find?_eq_none.mpr (fun x hx => by simp [hs x hx]),
    List.find?_cons_of_pos _ ha]
  rfl

/-- An `update_one` with a field-preserving rewrite keeps any projection of the
collection unchanged. -/
theorem map_updateFirst_eq {α β} (p : α → Bool) (f : α → α) (g : α → β)
    (hg : ∀ x, g (f x) = g x) (l : List α) :
    (updateFirst p f l).map g = l.map g := by
  induction l with
  | nil => rfl
  | cons x xs ih =>
    by_cases hx : p x = true
    · simp [updateFirst, hx, hg]
    · simp only [updateFirst, hx, if_false, Bool.false_eq_true, List.map_cons]
      rw [ih]

/-- An `update_one` whose filter and rewrite stay clear of another filter does
not change what that other filter finds. -/
theorem find?_updateFirst_disjoint {α} (p q : α → Bool) (f : α → α) (l : List α)
    (h : ∀ x ∈ l, p x = true → q x = false ∧ q (f x) = false) :
    (updateFirst p f l).find? q = l.find? q := by
  induction l with
  | nil => rfl
  | cons x xs ih =>
    by_cases hx : p x = true
    · obtain ⟨h1, h2⟩ := h x (List.mem_cons_self x xs) hx
      simp only [updateFirst, hx, if_true]
      rw [List.find?_cons_of_neg _ (by simp [h2]), List.find?_cons_of_neg _ (by simp [h1])]
    · simp only [updateFirst, hx, if_false, Bool.false_eq_true]
      by_cases hq : q x = true
      · rw [List.find?_cons_of_pos _ hq, List.find?_cons_of_pos _ hq]
      · rw [List.find?_cons_of_neg _ (by simp [hq]), List.find?_cons_of_neg _ (by simp [hq]),
          ih (fun y hy hp => h y (List.mem_cons_of_mem x hy) hp)]

/-- Two records of a collection with `Nodup` ids and the same id coincide. -/
theorem eq_of_mem_of_nodup_map {α β} {g : α → β} {l : List α}
    (h : (l.map g).Nodup) {a b : α} (ha : a ∈ l) (hb : b ∈ l) (hg : g a = g b) : a = b :=
  List.inj_on_of_nodup_map h ha hb hg

/-! ### Characterisation of `create_order` -/

/-- The code-side batch index agrees with the spec-side formula in terms of
the deficit. -/
theorem codeBatchIndex_eq_spec (a : Rat) (q t : Int) :
    codeBatchIndex a q t = specBatchIndex (deficitAfter a q) t := by
  unfold codeBatchIndex codeDeficit specBatchIndex deficitAfter
  by_cases h : a - (q : Rat) < 0
  · have habs : |a - (q : Rat)| = (q : Rat) - a := by rw [abs_of_neg h]; ring
    have hpos : (0 : Rat) < (q : Rat) - a := by linarith
    rw [if_pos h, habs, if_pos hpos, max_eq_right hpos.le, if_neg hpos.ne']
  · have hle : (q : Rat) - a ≤ 0 := by linarith
    rw [if_neg h, max_eq_left hle, if_pos rfl, if_neg (lt_irrefl 0)]

/-- Success inversion for `create_order`: a successful placement pins down the
inventory row, the validations, the returned document and the new store. -/
theorem create_order_ok_cases (db : DB) (order : OrderIn) (now : Int) (db2 : DB) (doc : OrderDoc)
    (hok : create_order db order now = (db2, Except.ok doc)) :
    ∃ inv, db.inventory.find? (fun i => i.product == order.product) = some inv ∧
      customerFound db order.customer_id = true ∧
      ¬ order.quantity_kg < inv.min_kg ∧ order.quantity_kg % inv.step_kg = 0 ∧
      doc = mkOrderDoc db.nextId order inv now ∧
      db2 = { db with
                orders := db.orders ++ [mkOrderDoc db.nextId order inv now]
                inventory := updateFirst (fun i => i._id == inv._id)
                  (debitInv now (inv.available_kg - (order.quantity_kg : Rat))) db.inventory
                nextId := db.nextId + 1 } := by
  unfold create_order at hok
  cases hp : parseOid order.customer_id with
  | none =>
    simp only [hp] at hok
    exact absurd (congrArg Prod.snd hok) (by simp)
  | some cid =>
    simp only [hp] at hok
    cases hc : db.customers.find? (fun c => c._id == cid) with
    | none =>
      simp only [hc] at hok
      exact absurd (congrArg Prod.snd hok) (by simp)
    | some c =>
      simp only [hc] at hok
      cases hi : db.inventory.find? (fun i => i.product == order.product) with
      | none =>
        simp only [hi] at hok
        exact absurd (congrArg Prod.snd hok) (by simp)
      | some inv =>
        simp only [hi] at hok
        by_cases hmin : order.quantity_kg < inv.min_kg
        · rw [if_pos hmin] at hok
          exact absurd (congrArg Prod.snd hok) (by simp)
        · rw [if_neg hmin] at hok
          by_cases hstep : order.quantity_kg % inv.step_kg ≠ 0
          · rw [if_pos hstep] at hok
            exact absurd (congrArg Prod.snd hok) (by simp)
          · rw [if_neg hstep] at hok
            have h1 : db2 = { db with
                orders := db.orders ++ [mkOrderDoc db.nextId order inv now]
                inventory := updateFirst (fun i => i._id == inv._id)
                  (debitInv now (inv.available_kg - (order.quantity_kg : Rat))) db.inventory
                nextId := db.nextId + 1 } := (congrArg Prod.fst hok).symm
            have h2 : doc = mkOrderDoc db.nextId order inv now :=
              (Except.ok.inj (congrArg Prod.snd hok)).symm
            exact ⟨inv, rfl, by simp [customerFound, hp, hc], hmin, not_not.mp hstep, h2, h1⟩

/-- Forward direction: once the guards hold, `create_order` performs exactly
the order insertion and the inventory write-back. -/
theorem create_order_ok_eq (db : DB) (order : OrderIn) (now : Int) (inv : InventoryDoc)
    (hcust : customerFound db order.customer_id = true)
    (hinv : db.inventory.find? (fun i => i.product == order.product) = some inv)
    (hmin : ¬ order.quantity_kg < inv.min_kg)
    (hstep : order.quantity_kg % inv.step_kg = 0) :
    create_order db order now =
      ({ db with
          orders := db.orders ++ [mkOrderDoc db.nextId order inv now]
          inventory := updateFirst (fun i => i._id == inv._id)
            (debitInv now (inv.available_kg - (order.quantity_kg : Rat))) db.inventory
          nextId := db.nextId + 1 },
        Except.ok (mkOrderDoc db.nextId order inv now)) := by
  cases hp : parseOid order.customer_id with
  | none =>
    simp only [customerFound, hp] at hcust
    exact absurd hcust (by simp)
  | some cid =>
    simp only [customerFound, hp] at hcust
    cases hc : db.customers.find? (fun c => c._id == cid) with
    | none =>
      simp only [hc, Option.isSome_none] at hcust
      exact absurd hcust (by simp)
    | some c =>
      unfold create_order
      simp only [hp, hc, hinv]
      rw [if_neg hmin, if_neg (not_not_intro hstep)]

/-- Error characterisation: quantity below the minimum aborts with
`BelowMinimum` before any write. -/
theorem create_order_below_min (db : DB) (order : OrderIn) (now : Int) (inv : InventoryDoc)
    (hcust : customerFound db order.customer_id = true)
    (hinv : db.inventory.find? (fun i => i.product == order.product) = some inv)
    (hmin : order.quantity_kg < inv.min_kg) :
    create_order db order now = (db, Except.error (ApiError.belowMinimum inv.min_kg)) := by
  cases hp : parseOid order.customer_id with
  | none =>
    simp only [customerFound, hp] at hcust
    exact absurd hcust (by simp)
  | some cid =>
    simp only [customerFound, hp] at hcust
    cases hc : db.customers.find? (fun c => c._id == cid) with
    | none =>
      simp only [hc, Option.isSome_none] at hcust
      exact absurd hcust (by simp)
    | some c =>
      unfold create_order
      simp only [hp, hc, hinv]
      rw [if_pos hmin]

/-- Error characterisation: quantity meeting the minimum but off the step
grid aborts with `InvalidIncrement` before any write. -/
theorem create_order_bad_step (db : DB) (order : OrderIn) (now : Int) (inv : InventoryDoc)
    (hcust : customerFound db order.customer_id = true)
    (hinv : db.inventory.find? (fun i => i.product == order.product) = some inv)
    (hmin : ¬ order.quantity_kg < inv.min_kg)
    (hstep : order.quantity_kg % inv.step_kg ≠ 0) :
    create_order db order now = (db, Except.error (ApiError.invalidIncrement inv.step_kg)) := by
  cases hp : parseOid order.customer_id with
  | none =>
    simp only [customerFound, hp] at hcust
    exact absurd hcust (by simp)
  | some cid =>
    simp only [customerFound, hp] at hcust
    cases hc : db.customers.find? (fun c => c._id == cid) with
    | none =>
      simp only [hc, Option.isSome_none] at hcust
      exact absurd hcust (by simp)
    | some c =>
      unfold create_order
      simp only [hp, hc, hinv]
      rw [if_neg hmin, if_pos hstep]

/-! ### Claims C1-C3 -/

/-- C1: for every successfully placed order, the persisted `batch_index`
equals 0 when the post-order deficit is 0 and
`⌊(deficit - 1) / batch_threshold_kg⌋` when the deficit is positive, the
deficit being the magnitude of negative `available_kg` after subtracting
`quantity_kg`. -/
theorem C1_batch_index_formula (db : DB) (order : OrderIn) (now : Int)
    (db2 : DB) (doc : OrderDoc) (inv : InventoryDoc)
    (hinv : db.inventory.find? (fun i => i.product == order.product) = some inv)
    (hok : create_order db order now = (db2, Except.ok doc)) :
    doc.batch_index =
      specBatchIndex (deficitAfter inv.available_kg order.quantity_kg)
        inv.batch_threshold_kg := by
  obtain ⟨inv2, hinv2, -, -, -, hdoc, -⟩ := create_order_ok_cases db order now db2 doc hok
  rw [hinv] at hinv2
  obtain rfl := Option.some.inj hinv2
  subst hdoc
  simp only [mkOrderDoc]
  exact codeBatchIndex_eq_spec inv.available_kg order.quantity_kg inv.batch_threshold_kg

/-- C1 witness: ordering 50 kg against `available_kg = 0` with threshold 15
succeeds and persists `batch_index = ⌊49 / 15⌋ = 3`. -/
theorem C1_batch_index_formula_witness :
    (create_order dbW ordW 0).2 = Except.ok docW ∧ docW.batch_index = 3 :=
  ⟨rfl,
    (C1_batch_index_formula dbW ordW 0 dbW2 docW invSux0 rfl rfl).trans
      (by unfold specBatchIndex deficitAfter invSux0 ordW; norm_num)⟩

/-- C2 counterexample: from the reachable state `available_kg = 0.5`
(fractional stock is accepted by `POST /inventory`), a 1 kg order passes all
validations, succeeds, and persists `batch_index = ⌊(0.5 - 1) / 15⌋ = -1`,
a negative value. -/
theorem C2_counterexample :
    (create_order dbHalf ordOne 0).2 = Except.ok (mkOrderDoc 2 ordOne invHalf 0) ∧
    (mkOrderDoc 2 ordOne invHalf 0).batch_index = -1 := by
  refine ⟨rfl, ?_⟩
  show codeBatchIndex invHalf.available_kg ordOne.quantity_kg invHalf.batch_threshold_kg = -1
  rw [codeBatchIndex_eq_spec]
  unfold specBatchIndex deficitAfter invHalf ordOne
  norm_num

/-- C2 (amended): a successful placement stores a non-negative `batch_index`
whenever the post-order deficit is zero or at least 1 kg — in particular for
every integer `available_kg`; only a fractional deficit strictly between 0
and 1 produces the negative value `-1`. -/
theorem C2_amended_batch_index_nonneg (db : DB) (order : OrderIn) (now : Int)
    (db2 : DB) (doc : OrderDoc) (inv : InventoryDoc)
    (hinv : db.inventory.find? (fun i => i.product == order.product) = some inv)
    (hthr : 1 ≤ inv.batch_threshold_kg)
    (hdef : deficitAfter inv.available_kg order.quantity_kg = 0 ∨
      1 ≤ deficitAfter inv.available_kg order.quantity_kg)
    (hok : create_order db order now = (db2, Except.ok doc)) :
    0 ≤ doc.batch_index := by
  obtain ⟨inv2, hinv2, -, -, -, hdoc, -⟩ := create_order_ok_cases db order now db2 doc hok
  rw [hinv] at hinv2
  obtain rfl := Option.some.inj hinv2
  subst hdoc
  simp only [mkOrderDoc]
  rw [codeBatchIndex_eq_spec]
  unfold specBatchIndex
  rcases hdef with h0 | h1
  · rw [h0, if_pos rfl]
  · have hne : deficitAfter inv.available_kg order.quantity_kg ≠ 0 := by
      intro h
      rw [h] at h1
      norm_num at h1
    rw [if_neg hne]
    have ht : (0 : Rat) ≤ (inv.batch_threshold_kg : Rat) := by
      have h0t : (0 : Int) ≤ inv.batch_threshold_kg := le_trans (by norm_num) hthr
      exact_mod_cast h0t
    have hnum : (0 : Rat) ≤ deficitAfter inv.available_kg order.quantity_kg - 1 := by
      linarith
    exact Int.floor_nonneg.mpr (div_nonneg hnum ht)

/-- C2 amended witness: the 50 kg example has deficit 50 ≥ 1, and the stored
`batch_index` (namely 3) is non-negative. -/
theorem C2_amended_batch_index_nonneg_witness : 0 ≤ docW.batch_index :=
  C2_amended_batch_index_nonneg dbW ordW 0 dbW2 docW invSux0 rfl (by norm_num [invSux0])
    (Or.inr (by unfold deficitAfter invSux0 ordW; norm_num)) rfl

/-- C3: every order that passes all validations persists
`total_price_nzd = round(price_per_kg * quantity_kg, 2)` (2-decimal rounding,
banker's tie-break on the rational model), and the document is stored in the
order collection. -/
theorem C3_total_price (db : DB) (order : OrderIn) (now : Int)
    (db2 : DB) (doc : OrderDoc) (inv : InventoryDoc)
    (hinv : db.inventory.find? (fun i => i.product == order.product) = some inv)
    (hok : create_order db order now = (db2, Except.ok doc)) :
    doc.total_price_nzd = round2 (inv.price_per_kg * (order.quantity_kg : Rat)) ∧
    doc ∈ db2.orders := by
  obtain ⟨inv2, hinv2, -, -, -, hdoc, hdb2⟩ := create_order_ok_cases db order now db2 doc hok
  rw [hinv] at hinv2
  obtain rfl := Option.some.inj hinv2
  subst hdoc
  subst hdb2
  refine ⟨by simp [mkOrderDoc], ?_⟩
  exact List.mem_append_right _ (by simp)

/-- C3 witness: 50 kg at 50.0 NZD/kg is persisted at 2500.00 NZD. -/
theorem C3_total_price_witness :
    docW.total_price_nzd = (2500 : Rat) ∧ docW ∈ dbW2.orders :=
  ⟨(C3_total_price dbW ordW 0 dbW2 docW invSux0 rfl rfl).1.trans
      (by unfold round2 roundHE invSux0 ordW; norm_num),
    (C3_total_price dbW ordW 0 dbW2 docW invSux0 rfl rfl).2⟩

/-! ### Claims C4-C5 -/

/-- C4 counterexample: with `min_kg = 3` and `step_kg = 2`, a 1 kg order has a
quantity that is not a multiple of the step, yet the code fails it with the
`BelowMinimum` error (the minimum check runs first), not `InvalidIncrement`
as the claim demands for every product/quantity combination. -/
theorem C4_counterexample :
    ordQ1.quantity_kg % invMin3Step2.step_kg ≠ 0 ∧
    create_order dbC4 ordQ1 0 ≠
      (dbC4, Except.error (ApiError.invalidIncrement invMin3Step2.step_kg)) ∧
    create_order dbC4 ordQ1 0 = (dbC4, Except.error (ApiError.belowMinimum invMin3Step2.min_kg)) := by
  refine ⟨by decide, ?_, rfl⟩
  intro h
  rw [show create_order dbC4 ordQ1 0
      = (dbC4, Except.error (ApiError.belowMinimum invMin3Step2.min_kg)) from rfl] at h
  have h2 := congrArg Prod.snd h
  simp [invMin3Step2] at h2

/-- C4 (amended): assuming the request reaches quantity validation (the
customer resolves and the product has an inventory rule), a quantity strictly
below `min_kg` fails with the 400 `BelowMinimum` error reporting the
minimum, and a quantity meeting the minimum that is not a multiple of
`step_kg` fails with the 400 `InvalidIncrement` error reporting the step
(the minimum check runs first, so a quantity failing both reports
`BelowMinimum`); in both cases the store is returned unchanged, so no order
is persisted and inventory is untouched. -/
theorem C4_amended_validation_errors (db : DB) (order : OrderIn) (now : Int) (inv : InventoryDoc)
    (hcust : customerFound db order.customer_id = true)
    (hinv : db.inventory.find? (fun i => i.product == order.product) = some inv) :
    (order.quantity_kg < inv.min_kg →
      create_order db order now = (db, Except.error (ApiError.belowMinimum inv.min_kg))) ∧
    (inv.min_kg ≤ order.quantity_kg → order.quantity_kg % inv.step_kg ≠ 0 →
      create_order db order now = (db, Except.error (ApiError.invalidIncrement inv.step_kg))) ∧
    (ApiError.belowMinimum inv.min_kg).httpStatus = 400 ∧
    (ApiError.invalidIncrement inv.step_kg).httpStatus = 400 := by
  refine ⟨fun hmin => create_order_below_min db order now inv hcust hinv hmin,
    fun hmin hstep => create_order_bad_step db order now inv hcust hinv (not_lt.mpr hmin) hstep,
    rfl, rfl⟩

/-- C4 amended witness: 2 kg (below min 3) is rejected with `BelowMinimum 3`;
5 kg (≥ 3 but odd against step 2) is rejected with `InvalidIncrement 2`; the
store is unchanged in both cases. -/
theorem C4_amended_validation_errors_witness :
    create_order dbC4 ordQ2 0 = (dbC4, Except.error (ApiError.belowMinimum 3)) ∧
    create_order dbC4 ordQ5 0 = (dbC4, Except.error (ApiError.invalidIncrement 2)) :=
  ⟨(C4_amended_validation_errors dbC4 ordQ2 0 invMin3Step2 rfl rfl).1 (by decide),
    (C4_amended_validation_errors dbC4 ordQ5 0 invMin3Step2 rfl rfl).2.1 (by decide) (by decide)⟩

/-- C5: when the customer reference resolves but the ordered product has no
inventory record, `create_order` fails with the 400 `NotConfigured` error and
the store is returned unchanged — neither the order collection nor the
inventory collection is modified. -/
theorem C5_not_configured (db : DB) (order : OrderIn) (now : Int)
    (hcust : customerFound db order.customer_id = true)
    (hinv : db.inventory.find? (fun i => i.product == order.product) = none) :
    create_order db order now = (db, Except.error ApiError.notConfigured) ∧
    ApiError.notConfigured.httpStatus = 400 := by
  refine ⟨?_, rfl⟩
  cases hp : parseOid order.customer_id with
  | none =>
    simp only [customerFound, hp] at hcust
    exact absurd hcust (by simp)
  | some cid =>
    simp only [customerFound, hp] at hcust
    cases hc : db.customers.find? (fun c => c._id == cid) with
    | none =>
      simp only [hc, Option.isSome_none] at hcust
      exact absurd hcust (by simp)
    | some c =>
      unfold create_order
      simp only [hp, hc, hinv]

/-- C5 witness: ordering `suxhuk` before any inventory rule exists fails with
`NotConfigured` and leaves the store untouched. -/
theorem C5_not_configured_witness :
    create_order dbNoInv ordW 0 = (dbNoInv, Except.error ApiError.notConfigured) ∧
    ApiError.notConfigured.httpStatus = 400 :=
  C5_not_configured dbNoInv ordW 0 rfl rfl

/-! ### Claim C6 -/

/-- C6: a successful placement performs exactly two writes: the customer
collection is untouched, the order collection gains exactly the one computed
document (status `received`, rounded total, batch index, both timestamps set
before persistence), and the ordered product's inventory record — and only
it — is rewritten in place with `available_kg` decreased by `quantity_kg`
(possibly below zero). -/
theorem C6_success_two_writes (db : DB) (order : OrderIn) (now : Int) (inv : InventoryDoc)
    (hids : (db.inventory.map (fun i => i._id)).Nodup)
    (hcust : customerFound db order.customer_id = true)
    (hinv : db.inventory.find? (fun i => i.product == order.product) = some inv)
    (hmin : ¬ order.quantity_kg < inv.min_kg)
    (hstep : order.quantity_kg % inv.step_kg = 0) :
    ∃ pre post,
      db.inventory = pre ++ inv :: post ∧
      create_order db order now =
        ({ customers := db.customers
           inventory := pre ++ debitInv now (inv.available_kg - (order.quantity_kg : Rat)) inv :: post
           orders := db.orders ++ [mkOrderDoc db.nextId order inv now]
           nextId := db.nextId + 1 },
          Except.ok (mkOrderDoc db.nextId order inv now)) ∧
      (mkOrderDoc db.nextId order inv now).status = "received" ∧
      (mkOrderDoc db.nextId order inv now).total_price_nzd
        = round2 (inv.price_per_kg * (order.quantity_kg : Rat)) ∧
      (mkOrderDoc db.nextId order inv now).batch_index
        = specBatchIndex (deficitAfter inv.available_kg order.quantity_kg)
            inv.batch_threshold_kg ∧
      (mkOrderDoc db.nextId order inv now).created_at = now ∧
      (mkOrderDoc db.nextId order inv now).updated_at = now ∧
      (debitInv now (inv.available_kg - (order.quantity_kg : Rat)) inv).available_kg
        = inv.available_kg - (order.quantity_kg : Rat) := by
  obtain ⟨hpinv, pre, post, hdecomp, hpre⟩ := List.find?_eq_some.mp hinv
  refine ⟨pre, post, hdecomp, ?_, rfl,
    rfl, codeBatchIndex_eq_spec inv.available_kg order.quantity_kg inv.batch_threshold_kg,
    rfl, rfl, rfl⟩
  rw [create_order_ok_eq db order now inv hcust hinv hmin hstep]
  have hup : updateFirst (fun i => i._id == inv._id)
      (debitInv now (inv.available_kg - (order.quantity_kg : Rat))) db.inventory
      = pre ++ debitInv now (inv.available_kg - (order.quantity_kg : Rat)) inv :: post := by
    rw [hdecomp]
    apply updateFirst_append_of_first
    · intro x hx
      cases hbe : (x._id == inv._id) with
      | false => rfl
      | true =>
        exfalso
        have hxmem : x ∈ db.inventory := by rw [hdecomp]; exact List.mem_append_left _ hx
        have hinvmem : inv ∈ db.inventory := by
          rw [hdecomp]
          exact List.mem_append_right _ (List.mem_cons_self _ _)
        have hxeq : x._id = inv._id := beq_iff_eq.mp hbe
        have hxinv : x = inv := eq_of_mem_of_nodup_map hids hxmem hinvmem hxeq
        have hcontra := hpre x hx
        rw [hxinv] at hcontra
        simp only [hpinv] at hcontra
        simp at hcontra
    · simp
  rw [hup]

/-- C6 witness: the 50 kg example against `dbW` performs exactly the order
insertion and the in-place inventory debit to −50 kg. -/
theorem C6_success_two_writes_witness :
    ∃ pre post,
      dbW.inventory = pre ++ invSux0 :: post ∧
      create_order dbW ordW 0 =
        ({ customers := dbW.customers
           inventory := pre ++ debitInv 0 (invSux0.available_kg - (ordW.quantity_kg : Rat)) invSux0 :: post
           orders := dbW.orders ++ [mkOrderDoc dbW.nextId ordW invSux0 0]
           nextId := dbW.nextId + 1 },
          Except.ok (mkOrderDoc dbW.nextId ordW invSux0 0)) ∧
      (mkOrderDoc dbW.nextId ordW invSux0 0).status = "received" ∧
      (mkOrderDoc dbW.nextId ordW invSux0 0).total_price_nzd
        = round2 (invSux0.price_per_kg * (ordW.quantity_kg : Rat)) ∧
      (mkOrderDoc dbW.nextId ordW invSux0 0).batch_index
        = specBatchIndex (deficitAfter invSux0.available_kg ordW.quantity_kg)
            invSux0.batch_threshold_kg ∧
      (mkOrderDoc dbW.nextId ordW invSux0 0).created_at = 0 ∧
      (mkOrderDoc dbW.nextId ordW invSux0 0).updated_at = 0 ∧
      (debitInv 0 (invSux0.available_kg - (ordW.quantity_kg : Rat)) invSux0).available_kg
        = invSux0.available_kg - (ordW.quantity_kg : Rat) :=
  C6_success_two_writes dbW ordW 0 invSux0 (by decide) rfl rfl (by decide) (by decide)

/-! ### Claim C7 -/

/-- C7: starting from a store with fresh gateway ids and no record under the
given email, upserting a customer twice with the same email and different
payloads leaves exactly one customer record for that email; that record
carries the second upsert's name, phone, address and email, the `created_at`
of the first insert, and the refreshed `updated_at` of the second call. -/
theorem C7_upsert_twice (db : DB) (d1 d2 : CustomerIn) (t1 t2 : Int)
    (hfresh : ∀ c ∈ db.customers, c._id < db.nextId)
    (hemail : d1.email = d2.email)
    (hnone : ∀ c ∈ db.customers, c.email ≠ d2.email) :
    ((upsert_customer (upsert_customer db d1 t1).1 d2 t2).1.customers.countP
        (fun c => c.email == d2.email) = 1) ∧
    ((upsert_customer (upsert_customer db d1 t1).1 d2 t2).1.customers.find?
        (fun c => c.email == d2.email)
      = some (upsert_customer (upsert_customer db d1 t1).1 d2 t2).2) ∧
    (upsert_customer (upsert_customer db d1 t1).1 d2 t2).2.name = d2.name ∧
    (upsert_customer (upsert_customer db d1 t1).1 d2 t2).2.email = d2.email ∧
    (upsert_customer (upsert_customer db d1 t1).1 d2 t2).2.phone = d2.phone ∧
    (upsert_customer (upsert_customer db d1 t1).1 d2 t2).2.address = d2.address ∧
    (upsert_customer (upsert_customer db d1 t1).1 d2 t2).2.created_at = t1 ∧
    (upsert_customer (upsert_customer db d1 t1).1 d2 t2).2.updated_at = t2 := by
  have hfind1 : db.customers.find? (fun c => c.email == d1.email) = none := by
    refine List.find?_eq_none.mpr (fun x hx => ?_)
    simp only [beq_iff_eq]
    rw [hemail]
    exact fun h => hnone x hx h
  have h1 : upsert_customer db d1 t1
      = ({ db with
            customers := db.customers ++ [freshCustomer db d1 t1]
            nextId := db.nextId + 1 }, freshCustomer db d1 t1) := by
    simp only [upsert_customer, hfind1]
  have hpfx : ∀ x ∈ db.customers, (x.email == d2.email) = false := by
    intro x hx
    simp only [beq_eq_false_iff_ne]
    exact hnone x hx
  have hc1email : ((freshCustomer db d1 t1).email == d2.email) = true := by
    simp only [freshCustomer, beq_iff_eq]
    exact hemail
  have hfind2 : (db.customers ++ [freshCustomer db d1 t1]).find?
      (fun c => c.email == d2.email) = some (freshCustomer db d1 t1) :=
    find?_append_first _ db.customers [] (freshCustomer db d1 t1) hpfx hc1email
  have hidprefix : ∀ x ∈ db.customers, (x._id == (freshCustomer db d1 t1)._id) = false := by
    intro x hx
    simp only [freshCustomer, beq_eq_false_iff_ne]
    exact Nat.ne_of_lt (hfresh x hx)
  have hup : updateFirst (fun c => c._id == (freshCustomer db d1 t1)._id)
      (fun _ => overwriteCustomer (freshCustomer db d1 t1) d2 t2)
      (db.customers ++ [freshCustomer db d1 t1])
      = db.customers ++ [overwriteCustomer (freshCustomer db d1 t1) d2 t2] :=
    updateFirst_append_of_first _ _ db.customers [] (freshCustomer db d1 t1)
      hidprefix (by simp)
  have h2 : upsert_customer (upsert_customer db d1 t1).1 d2 t2
      = ({ db with
            customers := db.customers ++ [overwriteCustomer (freshCustomer db d1 t1) d2 t2]
            nextId := db.nextId + 1 },
          overwriteCustomer (freshCustomer db d1 t1) d2 t2) := by
    rw [h1]
    simp only [upsert_customer, hfind2, hup]
  rw [h2]
  refine ⟨?_, ?_, rfl, by simp [overwriteCustomer], rfl, rfl, rfl, rfl⟩
  · rw [List.countP_append]
    have hz : db.customers.countP (fun c => c.email == d2.email) = 0 := by
      rw [List.countP_eq_zero]
      intro a ha
      simp only [hpfx a ha]
      exact fun h => Bool.false_ne_true h
    rw [hz]
    simp [List.countP_cons, overwriteCustomer]
  · refine find?_append_first _ db.customers [] _ hpfx ?_
    simp [overwriteCustomer]

/-- C7 witness: upserting `cAna` at time 5 and `cBep` at time 9 into the
empty store leaves one record for the email, named Bep, created at 5,
updated at 9. -/
theorem C7_upsert_twice_witness :
    ((upsert_customer (upsert_customer dbEmpty cAna 5).1 cBep 9).1.customers.countP
        (fun c => c.email == cBep.email) = 1) ∧
    ((upsert_customer (upsert_customer dbEmpty cAna 5).1 cBep 9).1.customers.find?
        (fun c => c.email == cBep.email)
      = some (upsert_customer (upsert_customer dbEmpty cAna 5).1 cBep 9).2) ∧
    (upsert_customer (upsert_customer dbEmpty cAna 5).1 cBep 9).2.name = cBep.name ∧
    (upsert_customer (upsert_customer dbEmpty cAna 5).1 cBep 9).2.email = cBep.email ∧
    (upsert_customer (upsert_customer dbEmpty cAna 5).1 cBep 9).2.phone = cBep.phone ∧
    (upsert_customer (upsert_customer dbEmpty cAna 5).1 cBep 9).2.address = cBep.address ∧
    (upsert_customer (upsert_customer dbEmpty cAna 5).1 cBep 9).2.created_at = 5 ∧
    (upsert_customer (upsert_customer dbEmpty cAna 5).1 cBep 9).2.updated_at = 9 :=
  C7_upsert_twice dbEmpty cAna cBep 5 9 (by decide) rfl (by decide)

/-! ### Claim C8 -/

/-- When both catalog rows are already present, listing performs no write and
returns the collection as is. -/
theorem list_inventory_of_present (db : DB)
    (hs : "suxhuk" ∈ db.inventory.map (fun i => i.product))
    (hm : "mish_te_teren" ∈ db.inventory.map (fun i => i.product)) :
    list_inventory db = (db, db.inventory) := by
  unfold list_inventory
  simp [hs, hm]

/-- C8: the first `GET /inventory` inserts a default row for each of the two
fixed products that has no record and never modifies existing records — the
pre-existing rows survive as a prefix, every inserted row is for a product
that had no record (so no duplicates are created) and carries the documented
defaults (`suxhuk`: price 50.0/kg, min 1, step 1, threshold 15, stock 0;
`mish_te_teren`: price 65.0/kg, min 3, step 1, threshold 15, stock 0), and a
row is inserted for each product that was missing; both products appear in
every listing, and a second consecutive listing changes nothing and returns
identical catalog entries. -/
theorem C8_list_inventory_idempotent (db : DB) :
    (list_inventory (list_inventory db).1).1 = (list_inventory db).1 ∧
    (list_inventory (list_inventory db).1).2 = (list_inventory db).2 ∧
    "suxhuk" ∈ (list_inventory db).2.map (fun i => i.product) ∧
    "mish_te_teren" ∈ (list_inventory db).2.map (fun i => i.product) ∧
    ∃ tail, (list_inventory db).1.inventory = db.inventory ++ tail ∧
      (∀ x ∈ tail, x.product ∉ db.inventory.map (fun i => i.product)) ∧
      (∀ x ∈ tail,
        (x.product = "suxhuk" ∧ x.price_per_kg = 50 ∧ x.min_kg = 1 ∧ x.step_kg = 1 ∧
          x.available_kg = 0 ∧ x.batch_threshold_kg = 15) ∨
        (x.product = "mish_te_teren" ∧ x.price_per_kg = 65 ∧ x.min_kg = 3 ∧ x.step_kg = 1 ∧
          x.available_kg = 0 ∧ x.batch_threshold_kg = 15)) ∧
      ("suxhuk" ∉ db.inventory.map (fun i => i.product) →
        ∃ x ∈ tail, x.product = "suxhuk") ∧
      ("mish_te_teren" ∉ db.inventory.map (fun i => i.product) →
        ∃ x ∈ tail, x.product = "mish_te_teren") := by
  by_cases hs : "suxhuk" ∈ db.inventory.map (fun i => i.product) <;>
    by_cases hm : "mish_te_teren" ∈ db.inventory.map (fun i => i.product)
  · -- both rows present: the first call is already a no-op
    have heq := list_inventory_of_present db hs hm
    refine ⟨?_, ?_, ?_, ?_, [], ?_, by simp, by simp,
      fun h => absurd hs h, fun h => absurd hm h⟩
    · rw [heq]
      show (list_inventory db).1 = db
      rw [heq]
    · rw [heq]
      show (list_inventory db).2 = db.inventory
      rw [heq]
    · rw [heq]; exact hs
    · rw [heq]; exact hm
    · rw [heq]; simp
  · -- only `mish_te_teren` missing
    have heq : list_inventory db
        = ({ db with
              inventory := db.inventory ++ [mishTeTerenDefault db.nextId]
              nextId := db.nextId + 1 },
            db.inventory ++ [mishTeTerenDefault db.nextId]) := by
      unfold list_inventory
      simp [hs, hm]
    have hps : "suxhuk" ∈ (db.inventory ++ [mishTeTerenDefault db.nextId]).map
        (fun i => i.product) := by
      rw [List.map_append]
      exact List.mem_append_left _ hs
    have hpm : "mish_te_teren" ∈ (db.inventory ++ [mishTeTerenDefault db.nextId]).map
        (fun i => i.product) := by
      rw [List.map_append]
      exact List.mem_append_right _ (by simp [mishTeTerenDefault])
    have h2 := list_inventory_of_present
      ({ db with
          inventory := db.inventory ++ [mishTeTerenDefault db.nextId]
          nextId := db.nextId + 1 }) hps hpm
    refine ⟨?_, ?_, ?_, ?_, [mishTeTerenDefault db.nextId], ?_, ?_, ?_,
      fun h => absurd hs h,
      fun _ => ⟨mishTeTerenDefault db.nextId, by simp, rfl⟩⟩
    · rw [heq]
      show (list_inventory _).1 = _
      rw [h2]
    · rw [heq]
      show (list_inventory _).2 = _
      rw [h2]
    · rw [heq]; exact hps
    · rw [heq]; exact hpm
    · rw [heq]
    · intro x hx
      rw [List.mem_singleton] at hx
      subst hx
      simpa [mishTeTerenDefault] using hm
    · intro x hx
      rw [List.mem_singleton] at hx
      subst hx
      exact Or.inr ⟨rfl, rfl, rfl, rfl, rfl, rfl⟩
  · -- only `suxhuk` missing
    have heq : list_inventory db
        = ({ db with
              inventory := db.inventory ++ [suxhukDefault db.nextId]
              nextId := db.nextId + 1 },
            db.inventory ++ [suxhukDefault db.nextId]) := by
      unfold list_inventory
      simp [hs, hm]
    have hps : "suxhuk" ∈ (db.inventory ++ [suxhukDefault db.nextId]).map
        (fun i => i.product) := by
      rw [List.map_append]
      exact List.mem_append_right _ (by simp [suxhukDefault])
    have hpm : "mish_te_teren" ∈ (db.inventory ++ [suxhukDefault db.nextId]).map
        (fun i => i.product) := by
      rw [List.map_append]
      exact List.mem_append_left _ hm
    have h2 := list_inventory_of_present
      ({ db with
          inventory := db.inventory ++ [suxhukDefault db.nextId]
          nextId := db.nextId + 1 }) hps hpm
    refine ⟨?_, ?_, ?_, ?_, [suxhukDefault db.nextId], ?_, ?_, ?_,
      fun _ => ⟨suxhukDefault db.nextId, by simp, rfl⟩,
      fun h => absurd hm h⟩
    · rw [heq]
      show (list_inventory _).1 = _
      rw [h2]
    · rw [heq]
      show (list_inventory _).2 = _
      rw [h2]
    · rw [heq]; exact hps
    · rw [heq]; exact hpm
    · rw [heq]
    · intro x hx
      rw [List.mem_singleton] at hx
      subst hx
      simpa [suxhukDefault] using hs
    · intro x hx
      rw [List.mem_singleton] at hx
      subst hx
      exact Or.inl ⟨rfl, rfl, rfl, rfl, rfl, rfl⟩
  · -- both rows missing: two inserts, `suxhuk` first
    have heq : list_inventory db
        = ({ db with
              inventory := db.inventory ++ [suxhukDefault db.nextId]
                ++ [mishTeTerenDefault (db.nextId + 1)]
              nextId := db.nextId + 1 + 1 },
            db.inventory ++ [suxhukDefault db.nextId]
              ++ [mishTeTerenDefault (db.nextId + 1)]) := by
      unfold list_inventory
      simp [hs, hm]
    have hps : "suxhuk" ∈ (db.inventory ++ [suxhukDefault db.nextId]
        ++ [mishTeTerenDefault (db.nextId + 1)]).map (fun i => i.product) := by
      rw [List.map_append, List.map_append]
      exact List.mem_append_left _ (List.mem_append_right _ (by simp [suxhukDefault]))
    have hpm : "mish_te_teren" ∈ (db.inventory ++ [suxhukDefault db.nextId]
        ++ [mishTeTerenDefault (db.nextId + 1)]).map (fun i => i.product) := by
      rw [List.map_append]
      exact List.mem_append_right _ (by simp [mishTeTerenDefault])
    have h2 := list_inventory_of_present
      ({ db with
          inventory := db.inventory ++ [suxhukDefault db.nextId]
            ++ [mishTeTerenDefault (db.nextId + 1)]
          nextId := db.nextId + 1 + 1 }) hps hpm
    refine ⟨?_, ?_, ?_, ?_,
      [suxhukDefault db.nextId, mishTeTerenDefault (db.nextId + 1)], ?_, ?_, ?_,
      fun _ => ⟨suxhukDefault db.nextId, by simp, rfl⟩,
      fun _ => ⟨mishTeTerenDefault (db.nextId + 1), by simp, rfl⟩⟩
    · rw [heq]
      show (list_inventory _).1 = _
      rw [h2]
    · rw [heq]
      show (list_inventory _).2 = _
      rw [h2]
    · rw [heq]; exact hps
    · rw [heq]; exact hpm
    · rw [heq]
      simp
    · intro x hx
      rw [show [suxhukDefault db.nextId, mishTeTerenDefault (db.nextId + 1)]
          = [suxhukDefault db.nextId] ++ [mishTeTerenDefault (db.nextId + 1)] from rfl,
        List.mem_append, List.mem_singleton, List.mem_singleton] at hx
      rcases hx with hx | hx <;> subst hx
      · simpa [suxhukDefault] using hs
      · simpa [mishTeTerenDefault] using hm
    · intro x hx
      rw [show [suxhukDefault db.nextId, mishTeTerenDefault (db.nextId + 1)]
          = [suxhukDefault db.nextId] ++ [mishTeTerenDefault (db.nextId + 1)] from rfl,
        List.mem_append, List.mem_singleton, List.mem_singleton] at hx
      rcases hx with hx | hx <;> subst hx
      · exact Or.inl ⟨rfl, rfl, rfl, rfl, rfl, rfl⟩
      · exact Or.inr ⟨rfl, rfl, rfl, rfl, rfl, rfl⟩

/-! ### Claim C9 -/

/-- Boolean helper: a negated predicate that held in a `find?` prefix. -/
theorem bnot_true_to_false {b : Bool} (h : (!b) = true) : b = false := by
  cases b
  · rfl
  · simp at h

/-- C9: a status update fails with the 400 invalid-id error on a malformed
order id and with the 404 not-found error on a well-formed but absent id,
returning the store unchanged in both cases; on an existing order it
overwrites `status` with the requested value unconditionally and refreshes
`updated_at`, replacing that one record in place and leaving every other
order field unchanged. -/
theorem C9_status_update (db : DB) (order_id st : String) (now : Int) :
    (parseOid order_id = none →
      update_order_status db order_id st now = (db, Except.error ApiError.invalidOrderId) ∧
      ApiError.invalidOrderId.httpStatus = 400) ∧
    (∀ oid, parseOid order_id = some oid →
      db.orders.find? (fun o => o._id == oid) = none →
      update_order_status db order_id st now = (db, Except.error ApiError.orderNotFound) ∧
      ApiError.orderNotFound.httpStatus = 404) ∧
    (∀ oid o, parseOid order_id = some oid →
      db.orders.find? (fun o => o._id == oid) = some o →
      ∃ pre post, db.orders = pre ++ o :: post ∧
        update_order_status db order_id st now =
          ({ db with orders := pre ++ setStatus st now o :: post },
            Except.ok (setStatus st now o)) ∧
        (setStatus st now o).status = st ∧
        (setStatus st now o).updated_at = now ∧
        (setStatus st now o)._id = o._id ∧
        (setStatus st now o).customer_id = o.customer_id ∧
        (setStatus st now o).product = o.product ∧
        (setStatus st now o).quantity_kg = o.quantity_kg ∧
        (setStatus st now o).total_price_nzd = o.total_price_nzd ∧
        (setStatus st now o).notes = o.notes ∧
        (setStatus st now o).batch_index = o.batch_index ∧
        (setStatus st now o).created_at = o.created_at) := by
  refine ⟨?_, ?_, ?_⟩
  · intro h
    refine ⟨?_, rfl⟩
    simp only [update_order_status, h]
  · intro oid hoid hfind
    refine ⟨?_, rfl⟩
    simp only [update_order_status, hoid, hfind]
  · intro oid o hoid hfind
    obtain ⟨hpo, pre, post, hdecomp, hpre⟩ := List.find?_eq_some.mp hfind
    have hpre2 : ∀ x ∈ pre, (x._id == oid) = false :=
      fun x hx => bnot_true_to_false (hpre x hx)
    have hup : updateFirst (fun x => x._id == oid) (setStatus st now) db.orders
        = pre ++ setStatus st now o :: post := by
      rw [hdecomp]
      exact updateFirst_append_of_first _ _ pre post o hpre2 hpo
    refine ⟨pre, post, hdecomp, ?_, rfl, rfl, rfl, rfl, rfl, rfl, rfl, rfl, rfl, rfl⟩
    simp only [update_order_status, hoid, hfind, hup]

/-- C9 witness: `"not-an-id"` is rejected 400 with no mutation; the
well-formed absent id 1 is rejected 404 with no mutation; updating the stored
order overwrites only `status` and `updated_at`. -/
theorem C9_status_update_witness :
    (update_order_status dbOrd "not-an-id" "in_production" 7
        = (dbOrd, Except.error ApiError.invalidOrderId) ∧
      ApiError.invalidOrderId.httpStatus = 400) ∧
    (update_order_status dbOrd oidOne "in_production" 7
        = (dbOrd, Except.error ApiError.orderNotFound) ∧
      ApiError.orderNotFound.httpStatus = 404) ∧
    (∃ pre post, dbOrd.orders = pre ++ ordDoc0 :: post ∧
      update_order_status dbOrd oidZero "in_production" 7 =
        ({ dbOrd with orders := pre ++ setStatus "in_production" 7 ordDoc0 :: post },
          Except.ok (setStatus "in_production" 7 ordDoc0)) ∧
      (setStatus "in_production" 7 ordDoc0).status = "in_production" ∧
      (setStatus "in_production" 7 ordDoc0).updated_at = 7 ∧
      (setStatus "in_production" 7 ordDoc0)._id = ordDoc0._id ∧
      (setStatus "in_production" 7 ordDoc0).customer_id = ordDoc0.customer_id ∧
      (setStatus "in_production" 7 ordDoc0).product = ordDoc0.product ∧
      (setStatus "in_production" 7 ordDoc0).quantity_kg = ordDoc0.quantity_kg ∧
      (setStatus "in_production" 7 ordDoc0).total_price_nzd = ordDoc0.total_price_nzd ∧
      (setStatus "in_production" 7 ordDoc0).notes = ordDoc0.notes ∧
      (setStatus "in_production" 7 ordDoc0).batch_index = ordDoc0.batch_index ∧
      (setStatus "in_production" 7 ordDoc0).created_at = ordDoc0.created_at) :=
  ⟨(C9_status_update dbOrd "not-an-id" "in_production" 7).1 rfl,
    (C9_status_update dbOrd oidOne "in_production" 7).2.1 1 rfl rfl,
    (C9_status_update dbOrd oidZero "in_production" 7).2.2 0 ordDoc0 rfl rfl⟩

/-! ### Claim C10 -/

/-- One `POST /seed` iteration when the product row exists: `$set` of the six
default fields on the first matching record. -/
theorem seedOne_found (mk : Nat → InventoryDoc) (db : DB) (r : InventoryDoc)
    (h : db.inventory.find? (fun i => i.product == (mk db.nextId).product) = some r) :
    seedOne mk db
      = { db with
            inventory := updateFirst (fun i => i._id == r._id)
              (seedFields (mk db.nextId)) db.inventory } := by
  simp only [seedOne, h]

/-- One `POST /seed` iteration when the product row is absent: plain insert. -/
theorem seedOne_not_found (mk : Nat → InventoryDoc) (db : DB)
    (h : db.inventory.find? (fun i => i.product == (mk db.nextId).product) = none) :
    seedOne mk db
      = { db with
            inventory := db.inventory ++ [mk db.nextId]
            nextId := db.nextId + 1 } := by
  simp only [seedOne, h]

/-- The `mish_te_teren` seed iteration does not disturb what the `suxhuk`
filter finds. -/
theorem seedOne_mish_preserves_suxhuk (db1 : DB) (s : InventoryDoc)
    (hids1 : (db1.inventory.map (fun i => i._id)).Nodup)
    (hfindS : db1.inventory.find? (fun i => i.product == "suxhuk") = some s) :
    (seedOne mishTeTerenDefault db1).inventory.find? (fun i => i.product == "suxhuk")
      = some s := by
  cases hm2 : db1.inventory.find?
      (fun i => i.product == (mishTeTerenDefault db1.nextId).product) with
  | none =>
    rw [seedOne_not_found mishTeTerenDefault db1 hm2]
    exact find?_append_some hfindS
  | some e =>
    rw [seedOne_found mishTeTerenDefault db1 e hm2]
    have hemem : e ∈ db1.inventory := List.mem_of_find?_eq_some hm2
    have hep : e.product = "mish_te_teren" := by
      have he2 := List.find?_some hm2
      simpa [mishTeTerenDefault] using he2
    have hdisj : ∀ x ∈ db1.inventory, (x._id == e._id) = true →
        ((x.product == "suxhuk") = false ∧
          ((seedFields (mishTeTerenDefault db1.nextId) x).product == "suxhuk") = false) := by
      intro x hx hxe
      have hxe2 : x = e := eq_of_mem_of_nodup_map hids1 hx hemem (beq_iff_eq.mp hxe)
      refine ⟨?_, by simp [seedFields, mishTeTerenDefault]⟩
      rw [hxe2, hep]
      rfl
    rw [find?_updateFirst_disjoint _ _ _ _ hdisj]
    exact hfindS

/-- The `mish_te_teren` seed iteration overwrites the found row's six fields
in place. -/
theorem seedOne_mish_on_found (db1 : DB) (r : InventoryDoc)
    (hids1 : (db1.inventory.map (fun i => i._id)).Nodup)
    (hfind1 : db1.inventory.find? (fun i => i.product == "mish_te_teren") = some r) :
    (seedOne mishTeTerenDefault db1).inventory.find? (fun i => i.product == "mish_te_teren")
      = some (seedFields (mishTeTerenDefault 0) r) := by
  obtain ⟨hpr, pre, post, hdecomp, hpre⟩ := List.find?_eq_some.mp hfind1
  have hpre2 : ∀ x ∈ pre, (x.product == "mish_te_teren") = false :=
    fun x hx => bnot_true_to_false (hpre x hx)
  have hidpre : ∀ x ∈ pre, (x._id == r._id) = false := by
    intro x hx
    cases hbe : (x._id == r._id) with
    | false => rfl
    | true =>
      exfalso
      have hxmem : x ∈ db1.inventory := by rw [hdecomp]; exact List.mem_append_left _ hx
      have hrmem : r ∈ db1.inventory := by
        rw [hdecomp]; exact List.mem_append_right _ (List.mem_cons_self _ _)
      have hxr : x = r := eq_of_mem_of_nodup_map hids1 hxmem hrmem (beq_iff_eq.mp hbe)
      have hpr2 : (r.product == "mish_te_teren") = true := hpr
      have hcontra := hpre2 x hx
      rw [hxr, hpr2] at hcontra
      simp at hcontra
  have hm2 : db1.inventory.find?
      (fun i => i.product == (mishTeTerenDefault db1.nextId).product) = some r := hfind1
  rw [seedOne_found mishTeTerenDefault db1 r hm2]
  have hup : updateFirst (fun i => i._id == r._id)
      (seedFields (mishTeTerenDefault db1.nextId)) db1.inventory
      = pre ++ seedFields (mishTeTerenDefault db1.nextId) r :: post := by
    rw [hdecomp]
    exact updateFirst_append_of_first _ _ pre post r hidpre (by simp)
  show (updateFirst (fun i => i._id == r._id)
      (seedFields (mishTeTerenDefault db1.nextId)) db1.inventory).find?
      (fun i => i.product == "mish_te_teren") = some (seedFields (mishTeTerenDefault 0) r)
  rw [hup]
  exact find?_append_first _ pre post _ hpre2 (by simp [seedFields, mishTeTerenDefault])

/-- C10: `POST /seed` overwrites every existing catalog row with the
documented defaults — the `suxhuk` row is reset to price 50, min 1, step 1,
threshold 15 and `available_kg` 0, the `mish_te_teren` row to price 65,
min 3, step 1, threshold 15 and `available_kg` 0, each keeping its id —
discarding any administratively configured prices and any accumulated stock
or deficit; by contrast the lazy seeding of `GET /inventory` keeps every
existing record. -/
theorem C10_seed_overwrites_existing (db : DB)
    (hids : (db.inventory.map (fun i => i._id)).Nodup)
    (hfresh : ∀ i ∈ db.inventory, i._id < db.nextId) :
    (∀ r, db.inventory.find? (fun i => i.product == "suxhuk") = some r →
      (seed_defaults db).inventory.find? (fun i => i.product == "suxhuk")
        = some { r with
                  product := "suxhuk"
                  price_per_kg := 50
                  min_kg := 1
                  step_kg := 1
                  available_kg := 0
                  batch_threshold_kg := 15 }) ∧
    (∀ r, db.inventory.find? (fun i => i.product == "mish_te_teren") = some r →
      (seed_defaults db).inventory.find? (fun i => i.product == "mish_te_teren")
        = some { r with
                  product := "mish_te_teren"
                  price_per_kg := 65
                  min_kg := 3
                  step_kg := 1
                  available_kg := 0
                  batch_threshold_kg := 15 }) ∧
    (∀ r ∈ db.inventory, r ∈ (list_inventory db).1.inventory) := by
  refine ⟨?_, ?_, ?_⟩
  · -- suxhuk row reset, then preserved by the mish iteration
    intro r hr
    obtain ⟨hpr, pre, post, hdecomp, hpre⟩ := List.find?_eq_some.mp hr
    have hpre2 : ∀ x ∈ pre, (x.product == "suxhuk") = false :=
      fun x hx => bnot_true_to_false (hpre x hx)
    have hidpre : ∀ x ∈ pre, (x._id == r._id) = false := by
      intro x hx
      cases hbe : (x._id == r._id) with
      | false => rfl
      | true =>
        exfalso
        have hxmem : x ∈ db.inventory := by rw [hdecomp]; exact List.mem_append_left _ hx
        have hrmem : r ∈ db.inventory := by
          rw [hdecomp]; exact List.mem_append_right _ (List.mem_cons_self _ _)
        have hxr : x = r := eq_of_mem_of_nodup_map hids hxmem hrmem (beq_iff_eq.mp hbe)
        have hpr2 : (r.product == "suxhuk") = true := hpr
        have hcontra := hpre2 x hx
        rw [hxr, hpr2] at hcontra
        simp at hcontra
    have hfindS : db.inventory.find?
        (fun i => i.product == (suxhukDefault db.nextId).product) = some r := hr
    have hup : updateFirst (fun i => i._id == r._id)
        (seedFields (suxhukDefault db.nextId)) db.inventory
        = pre ++ seedFields (suxhukDefault db.nextId) r :: post := by
      rw [hdecomp]
      exact updateFirst_append_of_first _ _ pre post r hidpre (by simp)
    have hstep1 : seedOne suxhukDefault db
        = { db with inventory := pre ++ seedFields (suxhukDefault db.nextId) r :: post } := by
      rw [seedOne_found suxhukDefault db r hfindS, hup]
    have hids1 : (((pre ++ seedFields (suxhukDefault db.nextId) r :: post)).map
        (fun i => i._id)).Nodup := by
      have hmapeq : (pre ++ seedFields (suxhukDefault db.nextId) r :: post).map
          (fun i => i._id) = db.inventory.map (fun i => i._id) := by
        rw [hdecomp]
        simp [seedFields]
      rw [hmapeq]
      exact hids
    have hfind1 : (pre ++ seedFields (suxhukDefault db.nextId) r :: post).find?
        (fun i => i.product == "suxhuk")
        = some (seedFields (suxhukDefault db.nextId) r) :=
      find?_append_first _ pre post _ hpre2 (by simp [seedFields, suxhukDefault])
    unfold seed_defaults
    rw [hstep1]
    have hkeep := seedOne_mish_preserves_suxhuk
      { db with inventory := pre ++ seedFields (suxhukDefault db.nextId) r :: post }
      (seedFields (suxhukDefault db.nextId) r) hids1 hfind1
    exact hkeep.trans rfl
  · -- mish row reset (whether or not a suxhuk row exists)
    intro r hr
    unfold seed_defaults
    cases hs1 : db.inventory.find?
        (fun i => i.product == (suxhukDefault db.nextId).product) with
    | some e1 =>
      rw [seedOne_found suxhukDefault db e1 hs1]
      have he1mem : e1 ∈ db.inventory := List.mem_of_find?_eq_some hs1
      have he1p : e1.product = "suxhuk" := by
        have he2 := List.find?_some hs1
        simpa [suxhukDefault] using he2
      have hdisj : ∀ x ∈ db.inventory, (x._id == e1._id) = true →
          ((x.product == "mish_te_teren") = false ∧
            ((seedFields (suxhukDefault db.nextId) x).product == "mish_te_teren") = false) := by
        intro x hx hxe
        have hxe2 : x = e1 := eq_of_mem_of_nodup_map hids hx he1mem (beq_iff_eq.mp hxe)
        refine ⟨?_, by simp [seedFields, suxhukDefault]⟩
        rw [hxe2, he1p]
        rfl
      have hfind1 : (updateFirst (fun i => i._id == e1._id)
          (seedFields (suxhukDefault db.nextId)) db.inventory).find?
          (fun i => i.product == "mish_te_teren") = some r := by
        rw [find?_updateFirst_disjoint _ _ _ _ hdisj]
        exact hr
      have hids1 : ((updateFirst (fun i => i._id == e1._id)
          (seedFields (suxhukDefault db.nextId)) db.inventory).map
          (fun i => i._id)).Nodup := by
        rw [map_updateFirst_eq (fun i => i._id == e1._id)
          (seedFields (suxhukDefault db.nextId)) (fun i => i._id) (fun x => rfl) db.inventory]
        exact hids
      exact (seedOne_mish_on_found
        { db with
            inventory := updateFirst (fun i => i._id == e1._id)
              (seedFields (suxhukDefault db.nextId)) db.inventory } r hids1 hfind1).trans rfl
    | none =>
      rw [seedOne_not_found suxhukDefault db hs1]
      have hfind1 : (db.inventory ++ [suxhukDefault db.nextId]).find?
          (fun i => i.product == "mish_te_teren") = some r := find?_append_some hr
      have hids1 : ((db.inventory ++ [suxhukDefault db.nextId]).map
          (fun i => i._id)).Nodup := by
        rw [List.map_append]
        refine List.Nodup.append hids (by simp) ?_
        intro a ha hb
        simp only [List.map_cons, List.map_nil, List.mem_singleton, suxhukDefault] at hb
        obtain ⟨x, hxmem, hxa⟩ := List.mem_map.mp ha
        have hxlt := hfresh x hxmem
        rw [hxa, hb] at hxlt
        exact Nat.lt_irrefl _ hxlt
      exact (seedOne_mish_on_found
        { db with
            inventory := db.inventory ++ [suxhukDefault db.nextId]
            nextId := db.nextId + 1 } r hids1 hfind1).trans rfl
  · -- lazy seeding keeps every existing record
    intro r hrmem
    by_cases hs : "suxhuk" ∈ db.inventory.map (fun i => i.product) <;>
      by_cases hm : "mish_te_teren" ∈ db.inventory.map (fun i => i.product) <;>
        simp [list_inventory, hs, hm, List.mem_append, hrmem]

/-- C10 witness: seeding over the configured store resets both rows to the
defaults (keeping ids and `updated_at`), while listing keeps the configured
`suxhuk` row untouched. -/
theorem C10_seed_overwrites_existing_witness :
    (seed_defaults dbSeed).inventory.find? (fun i => i.product == "suxhuk")
      = some { invSuxCustom with
                product := "suxhuk"
                price_per_kg := 50
                min_kg := 1
                step_kg := 1
                available_kg := 0
                batch_threshold_kg := 15 } ∧
    (seed_defaults dbSeed).inventory.find? (fun i => i.product == "mish_te_teren")
      = some { invMishCustom with
                product := "mish_te_teren"
                price_per_kg := 65
                min_kg := 3
                step_kg := 1
                available_kg := 0
                batch_threshold_kg := 15 } ∧
    invSuxCustom ∈ (list_inventory dbSeed).1.inventory :=
  ⟨(C10_seed_overwrites_existing dbSeed (by decide) (by decide)).1 invSuxCustom rfl,
    (C10_seed_overwrites_existing dbSeed (by decide) (by decide)).2.1 invMishCustom rfl,
    (C10_seed_overwrites_existing dbSeed (by decide) (by decide)).2.2 invSuxCustom
      (by simp [dbSeed])⟩

end Suxhuk
